import Mathlib

/-!
# Block Notary — verification of the specified behaviour

A shallow embedding of the repository's components that the claims
concern:

* the `Notary` Solidity contract (`storeHash` / `verifyHash` /
  `isNotarized` over one `mapping(bytes32 => uint256)`);
* the browser notarization flow of `frontend/static/js/metamask.js`
  (`handleNotarize` / `sendTransactionToBlockchain`);
* the standalone document signing tool (payload codec, authenticator,
  format adapter, signing and verification workflows).  The tool's
  Python source is not part of the repository snapshot — only its
  README and callers are — so those definitions are modelled from the
  specification, as marked in their doc comments.
-/

namespace BlockNotary

/-! ## The on-chain `Notary` contract

Embedded from the Solidity source: one `mapping(bytes32 => uint256)`
(`timestamps`, defaulting to `0`), `storeHash` guarded by
`require(timestamps[hash] == 0)`, and two view functions.  Hashes and
timestamps are modelled as `Nat`; a reverted call is `none` and leaves
the pre-state in force. -/

/-- Contract storage: the single `timestamps` mapping.  A Solidity
mapping reads `0` for every key that was never written. -/
structure NotaryState where
  timestamps : Nat → Nat

/-- The storage of a freshly deployed contract: every slot is zero. -/
def NotaryState.init : NotaryState := ⟨fun _ => 0⟩

/-- `storeHash(hash)`: reverts (`none`) when `timestamps[hash] != 0`
("Document already notarized"), otherwise writes the current block
timestamp into the mapping. -/
def storeHash (s : NotaryState) (h blockTimestamp : Nat) : Option NotaryState :=
  if s.timestamps h = 0 then
    some ⟨fun h2 => if h2 = h then blockTimestamp else s.timestamps h2⟩
  else
    none

/-- The storage after a `storeHash` transaction: a reverted call rolls
back, leaving the state unchanged. -/
def storeHashTx (s : NotaryState) (h blockTimestamp : Nat) : NotaryState :=
  (storeHash s h blockTimestamp).getD s

/-- `verifyHash(hash)`: returns `timestamps[hash]` (0 if not found). -/
def verifyHash (s : NotaryState) (h : Nat) : Nat := s.timestamps h

/-- `isNotarized(hash)`: returns `timestamps[hash] > 0`. -/
def isNotarized (s : NotaryState) (h : Nat) : Bool := s.timestamps h > 0

/-- The contract's external operations.  `verify` and `check` are
`view` functions: they read but never write storage. -/
inductive NotaryOp where
  | store (h blockTimestamp : Nat)
  | verify (h : Nat)
  | check (h : Nat)

/-- Effect of one operation on storage.  View functions leave storage
unchanged; `store` behaves as the `storeHash` transaction. -/
def applyOp (s : NotaryState) : NotaryOp → NotaryState
  | .store h t => storeHashTx s h t
  | .verify _ => s
  | .check _ => s

/-- Effect of a sequence of operations, first to last. -/
def applyOps (s : NotaryState) (ops : List NotaryOp) : NotaryState :=
  ops.foldl applyOp s

/-- Run a list of `storeHash` transactions (hash, block timestamp)
against a freshly deployed contract. -/
def execStores (stores : List (Nat × Nat)) : NotaryState :=
  stores.foldl (fun s p => storeHashTx s p.1 p.2) NotaryState.init

/-! ## The browser notarization flow (`metamask.js`)

`handleNotarize` posts the file to `/api/notarize`; on a non-OK reply
with `verification_failed` it shows the verification error and
returns, otherwise on a non-OK reply it throws (caught and shown as an
error); only on an OK reply does it call
`sendTransactionToBlockchain`, which submits the `storeHash`
transaction through MetaMask and then confirms with the backend. -/

/-- The backend's reply to `POST /api/notarize`, as the fields
`handleNotarize` reads: the HTTP success flag (`response.ok`), the
`verification_failed` flag, the document hash and the error text. -/
structure NotarizeResponse where
  ok : Bool
  verification_failed : Bool
  hash : String
  error : String

/-- The externally observable steps of the notarization flow, in the
order the script performs them. -/
inductive FlowStep where
  | alertMsg (msg : String)
  | showVerificationError
  | showError (msg : String)
  | storeHashTxSend (hash : String)
  | confirmNotarize (hash : String)
  | showSuccess
deriving DecidableEq

/-- `sendTransactionToBlockchain(docHash, ...)`: submits the
`storeHash(hash)` contract call via MetaMask; on success it posts
`/api/notarize/confirm` and shows the success panel, on a transaction
error it shows an error panel.  `txOk` models whether the MetaMask
transaction succeeds. -/
def sendTransactionToBlockchain (docHash : String) (txOk : Bool) : List FlowStep :=
  if txOk then
    [.storeHashTxSend docHash, .confirmNotarize docHash, .showSuccess]
  else
    [.storeHashTxSend docHash, .showError "Transaction failed"]

/-- `handleNotarize(event)`: the guard clauses (wallet connected, file
and type chosen), then the backend verification request, then — only
when the backend replied OK — the MetaMask transaction. -/
def handleNotarize (hasAccount hasFile hasDocType : Bool)
    (resp : NotarizeResponse) (txOk : Bool) : List FlowStep :=
  if !hasAccount then [.alertMsg "Please connect your wallet first!"]
  else if !hasFile then [.alertMsg "Please select a file!"]
  else if !hasDocType then [.alertMsg "Please select a document type!"]
  else if !resp.ok then
    (if resp.verification_failed then [.showVerificationError]
     else [.showError resp.error])
  else sendTransactionToBlockchain resp.hash txOk

/-! ## The document signing tool

`tools/sign_document.py` is not part of the repository snapshot (only
its README and its backend/browser callers are), so the definitions in
this section are modelled from the specification: the payload codec
(§4.1), the authenticator (§4.2), the format adapter (§4.3) and the
signing and verification workflows (§4.4, §4.5).  File content is a
list of characters; the SHA-256 and HMAC primitives are abstract
function parameters whose outputs are hex strings. -/

/-- A hexadecimal digit `0-9a-f` (the alphabet of SHA-256 / HMAC hex
digests). -/
def isHexChar (c : Char) : Bool :=
  (48 ≤ c.toNat && c.toNat ≤ 57) || (97 ≤ c.toNat && c.toNat ≤ 102)

/-- A decimal digit `0-9`. -/
def isDigitChar (c : Char) : Bool := 48 ≤ c.toNat && c.toNat ≤ 57

/-- A character that may appear in a serialized payload field: neither
the marker's sentinel first character `#` (code 35) nor the field
delimiter `|` (code 124). -/
def isSafeFieldChar (c : Char) : Bool := c.toNat ≠ 35 && c.toNat ≠ 124

/-- Modelled from the spec: the fixed textual prefix marker that
locates an embedded provenance record (§4.1: "a fixed prefix marker
(e.g. a unique tag string unlikely to collide with ordinary document
content)").  Its first character `#` occurs nowhere else in the
marker and in no serialized field. -/
def MARKER : List Char := "#DOCSIGNATURE:".toList

/-- Modelled from the spec: the reserved field delimiter (§4.1: "a
reserved delimiter not expected in any field value"). -/
def DELIM : Char := '|'

/-- The character for one decimal digit value `0 ≤ k ≤ 9`. -/
def digitChar (k : Nat) : Char :=
  if k = 0 then '0' else if k = 1 then '1' else if k = 2 then '2'
  else if k = 3 then '3' else if k = 4 then '4' else if k = 5 then '5'
  else if k = 6 then '6' else if k = 7 then '7' else if k = 8 then '8' else '9'

/-- Decimal representation of a natural number, most significant digit
first (the serialized form of the integer `timestamp` field). -/
def natToDigits (n : Nat) : List Char :=
  if _h : n < 10 then [digitChar n]
  else natToDigits (n / 10) ++ [digitChar (n % 10)]
termination_by n
decreasing_by omega

/-- Value of a decimal digit string. -/
def digitsVal (cs : List Char) : Nat :=
  cs.foldl (fun a c => a * 10 + (c.toNat - 48)) 0

/-- Parse a serialized timestamp: a nonempty, all-digit string. -/
def digitsToNat (cs : List Char) : Option Nat :=
  if cs ≠ [] && cs.all isDigitChar then some (digitsVal cs) else none

/-- The enumerated document types (Glossary). -/
inductive DocumentType where
  | birth_certificate
  | degree_certificate
  | property_deed
  | employment_letter
  | legal_contract
  | identity_document
  | other
deriving DecidableEq

/-- The serialized code of each document type. -/
def DocumentType.code : DocumentType → List Char
  | .birth_certificate => "birth_certificate".toList
  | .degree_certificate => "degree_certificate".toList
  | .property_deed => "property_deed".toList
  | .employment_letter => "employment_letter".toList
  | .legal_contract => "legal_contract".toList
  | .identity_document => "identity_document".toList
  | .other => "other".toList

/-- Parse a document type code; `none` for a string outside the
enumerated set (§4.4 step 1: `UnknownDocumentType`). -/
def DocumentType.ofCode (cs : List Char) : Option DocumentType :=
  if cs = "birth_certificate".toList then some .birth_certificate
  else if cs = "degree_certificate".toList then some .degree_certificate
  else if cs = "property_deed".toList then some .property_deed
  else if cs = "employment_letter".toList then some .employment_letter
  else if cs = "legal_contract".toList then some .legal_contract
  else if cs = "identity_document".toList then some .identity_document
  else if cs = "other".toList then some .other
  else none

/-- The signed record embedded in a document (§3): owner hash,
document type, signing timestamp, issuer and the MAC over the other
four fields. -/
structure ProvenancePayload where
  ownerIdHash : List Char
  documentType : DocumentType
  timestamp : Nat
  issuer : List Char
  signature : List Char
deriving DecidableEq

/-- The five fields in fixed order, joined by the delimiter (§4.1). -/
def encodeFields (p : ProvenancePayload) : List Char :=
  p.ownerIdHash ++ DELIM ::
    (p.documentType.code ++ DELIM ::
      (natToDigits p.timestamp ++ DELIM :: (p.issuer ++ DELIM :: p.signature)))

/-- Modelled from the spec: `encode(payload) -> text` (§4.1), a single
marker-prefixed, delimiter-joined text block. -/
def encodePayload (p : ProvenancePayload) : List Char :=
  MARKER ++ encodeFields p

/-- The text after the last occurrence of `m` in `cs`; `none` when `m`
does not occur.  The scan tolerates the payload sitting anywhere in
the text (§4.1). -/
def afterLastMarker (m : List Char) : List Char → Option (List Char)
  | [] => none
  | c :: cs =>
    match afterLastMarker m cs with
    | some r => some r
    | none =>
      if m.isPrefixOf (c :: cs) then some ((c :: cs).drop m.length) else none

/-- Split on a single-character delimiter; `n` delimiters yield
`n + 1` groups. -/
def splitOnChar (d : Char) : List Char → List (List Char)
  | [] => [[]]
  | c :: cs =>
    if c = d then [] :: splitOnChar d cs
    else
      match splitOnChar d cs with
      | [] => [[c]]
      | g :: gs => (c :: g) :: gs

/-- Outcome of decoding a payload from text (§4.1): the payload, a
marker with the wrong field shape (`MalformedPayload`), or no marker
at all (`NotFound`). -/
inductive DecodeResult where
  | ok (p : ProvenancePayload)
  | malformed
  | notFound
deriving DecidableEq

/-- Modelled from the spec: `decode(text) -> payload | NotFound`
(§4.1).  Scans for the marker anywhere in the text; splits the
remainder on the delimiter; a field count other than five, an unknown
type code or a non-numeric timestamp is `MalformedPayload` (§7:
"marker found but fields don't parse"). -/
def decodePayload (text : List Char) : DecodeResult :=
  match afterLastMarker MARKER text with
  | none => .notFound
  | some rest =>
    match splitOnChar DELIM rest with
    | [f1, f2, f3, f4, f5] =>
      match DocumentType.ofCode f2, digitsToNat f3 with
      | some dt, some ts => .ok ⟨f1, dt, ts, f4, f5⟩
      | _, _ => .malformed
    | _ => .malformed

/-- A payload whose fields obey the data model (§3): hex owner hash
and signature, delimiter-free issuer. -/
def isValidPayload (p : ProvenancePayload) : Bool :=
  p.ownerIdHash.all isHexChar && p.issuer.all isSafeFieldChar &&
    p.signature.all isHexChar

/-- The canonical concatenation the MAC covers (§4.2): the four
non-signature fields in codec order. -/
def macMessage (ownerIdHash : List Char) (dt : DocumentType) (ts : Nat)
    (issuer : List Char) : List Char :=
  ownerIdHash ++ DELIM ::
    (dt.code ++ DELIM :: (natToDigits ts ++ DELIM :: issuer))

/-- Modelled from the spec: `tag(fields) -> mac` (§4.2), a keyed MAC
over the canonical concatenation, keyed with the shared secret.
`hmacF` abstracts HMAC-SHA256. -/
def tagOf (hmacF : List Char → List Char → List Char) (secret : List Char)
    (ownerIdHash : List Char) (dt : DocumentType) (ts : Nat)
    (issuer : List Char) : List Char :=
  hmacF secret (macMessage ownerIdHash dt ts issuer)

/-- Modelled from the spec: `verifyTag(fields, mac) -> bool` (§4.2),
recomputing the tag and comparing with the stored one. -/
def verifyTag (hmacF : List Char → List Char → List Char) (secret : List Char)
    (ownerIdHash : List Char) (dt : DocumentType) (ts : Nat)
    (issuer mac : List Char) : Bool :=
  decide (tagOf hmacF secret ownerIdHash dt ts issuer = mac)

/-- Modelled from the spec: the issuer "must be sanitized — reject or
escape embedded delimiters" (§4.1); modelled as stripping every
delimiter-unsafe character. -/
def sanitizeIssuer (issuer : List Char) : List Char :=
  issuer.filter isSafeFieldChar

/-- A document as the format adapter sees it: a PDF with an optional
custom metadata field and an opaque body, or a byte stream with its
extension (plain text and every other extension share the append
policy, §4.3). -/
inductive ModelFile where
  | pdf (metadata : Option (List Char)) (body : List Char)
  | raw (ext : List Char) (bytes : List Char)
deriving DecidableEq

/-- Signing-time failures (§7). -/
inductive SignError where
  | unknownDocumentType
  | unsupportedFormat
  | ioFailure
deriving DecidableEq

/-- Modelled from the spec: `embed(fileBytes, formatHint, payloadText)`
(§4.3).  PDF: the payload goes into the custom metadata field, and
without the PDF library the adapter fails with `UnsupportedFormat`
rather than degrading to byte-append; any other format: the payload is
appended after a separating newline.  The result is a new value — the
input is untouched. -/
def embedPayload (pdfLib : Bool) (f : ModelFile) (text : List Char) :
    Except SignError ModelFile :=
  match f with
  | .pdf _meta body =>
    if pdfLib then .ok (.pdf (some text) body) else .error .unsupportedFormat
  | .raw ext bytes => .ok (.raw ext (bytes ++ '\n' :: text))

/-- Whether a text contains the payload marker. -/
def hasMarker (cs : List Char) : Bool := (afterLastMarker MARKER cs).isSome

/-- Modelled from the spec: `extract(fileBytes, formatHint) ->
payloadText | NotFound` (§4.3).  PDF: read the metadata field (needs
the library); others: scan the bytes for the marker. -/
def extractPayloadText (pdfLib : Bool) : ModelFile → Option (List Char)
  | .pdf meta _ => if pdfLib then meta else none
  | .raw _ bytes => if hasMarker bytes then some bytes else none

/-- Whether the file contains an embedded payload marker at all,
independent of any library: in the PDF metadata field or in the raw
bytes. -/
def fileHasMarker : ModelFile → Bool
  | .pdf meta _ => (meta.map hasMarker).getD false
  | .raw _ bytes => hasMarker bytes

/-- A file path split into stem and extension. -/
structure DocPath where
  stem : List Char
  ext : List Char
deriving DecidableEq

/-- The conventional output name `<stem>_signed.<ext>` (§4.3). -/
def signedName (p : DocPath) : DocPath :=
  ⟨p.stem ++ "_signed".toList, p.ext⟩

/-- The file system the workflows touch: contents by path. -/
abbrev FS := DocPath → Option ModelFile

/-- Write one file. -/
def updateFS (fs : FS) (p : DocPath) (f : ModelFile) : FS :=
  fun q => if q = p then some f else fs q

/-- The payload the signing workflow constructs (§4.4 steps 2–4): the
hash of the identity number (the raw number is used only here), the
validated type, the signing time, the sanitized issuer and the MAC
over those four fields. -/
def signedPayload (hmacF : List Char → List Char → List Char) (secret : List Char)
    (sha256F : List Char → List Char) (aadhaar issuer : List Char)
    (dt : DocumentType) (now : Nat) : ProvenancePayload :=
  ⟨sha256F aadhaar, dt, now, sanitizeIssuer issuer,
    tagOf hmacF secret (sha256F aadhaar) dt now (sanitizeIssuer issuer)⟩

/-- Modelled from the spec: the Signing Workflow (§4.4).  Validate the
type code; read the file; build and tag the payload at the current
time; embed the encoded payload; write the result to the output path
(default `<stem>_signed.<ext>`), never overwriting the original
input. -/
def signWorkflow (hmacF : List Char → List Char → List Char) (secret : List Char)
    (sha256F : List Char → List Char) (pdfLib : Bool) (fs : FS)
    (inPath : DocPath) (aadhaar typeCode issuer : List Char)
    (outPathOpt : Option DocPath) (now : Nat) :
    Except SignError (FS × DocPath) :=
  match DocumentType.ofCode typeCode with
  | none => .error .unknownDocumentType
  | some dt =>
    match fs inPath with
    | none => .error .ioFailure
    | some f =>
      match embedPayload pdfLib f
          (encodePayload (signedPayload hmacF secret sha256F aadhaar issuer dt now)) with
      | .error e => .error e
      | .ok outFile =>
        if outPathOpt.getD (signedName inPath) = inPath then .error .ioFailure
        else .ok (updateFS fs (outPathOpt.getD (signedName inPath)) outFile,
          outPathOpt.getD (signedName inPath))

/-- The verification result taxonomy (§7). -/
inductive VerifyResult where
  | valid (p : ProvenancePayload)
  | noSignature
  | malformedPayload
  | invalidSignature
  | ownerMismatch
  | typeMismatch
  | ioFailure
deriving DecidableEq

/-- Steps 3–6 of the Verification Workflow (§4.5): MAC first, then the
owner hash comparison, then the type comparison. -/
def checkPayload (hmacF : List Char → List Char → List Char) (secret : List Char)
    (sha256F : List Char → List Char) (expAad : List Char)
    (expType : DocumentType) (p : ProvenancePayload) : VerifyResult :=
  if verifyTag hmacF secret p.ownerIdHash p.documentType p.timestamp p.issuer
      p.signature then
    if sha256F expAad = p.ownerIdHash then
      if expType = p.documentType then .valid p else .typeMismatch
    else .ownerMismatch
  else .invalidSignature

/-- Modelled from the spec: the Verification Workflow (§4.5): read the
file, extract the payload text (absence is `NoSignature`), decode it
(`NotFound` is `NoSignature`, a bad shape `MalformedPayload`), then
check MAC, owner and type in that order. -/
def verifyWorkflow (hmacF : List Char → List Char → List Char) (secret : List Char)
    (sha256F : List Char → List Char) (pdfLib : Bool) (fs : FS) (path : DocPath)
    (expAad : List Char) (expType : DocumentType) : VerifyResult :=
  match fs path with
  | none => .ioFailure
  | some f =>
    match extractPayloadText pdfLib f with
    | none => .noSignature
    | some text =>
      match decodePayload text with
      | .notFound => .noSignature
      | .malformed => .malformedPayload
      | .ok p => checkPayload hmacF secret sha256F expAad expType p

/-! ## Codec lemmas -/

/-- `isPrefixOf` gives a subset of characters. -/
theorem subset_of_isPrefixOf {m cs : List Char} (h : m.isPrefixOf cs = true) :
    m ⊆ cs :=
  ( List.isPrefixOf_iff_prefix.mp h).subset

/-- Digit characters have the expected code. -/
theorem digitChar_toNat (k : Nat) (hk : k < 10) : (digitChar k).toNat = 48 + k := by
  interval_cases k <;> rfl

/-- Digit characters are digits. -/
theorem isDigitChar_digitChar (k : Nat) (hk : k < 10) :
    isDigitChar (digitChar k) = true := by
  interval_cases k <;> rfl

/-- Digits are neither the marker sentinel nor the delimiter. -/
theorem isSafeFieldChar_of_digit (c : Char) (hc : isDigitChar c = true) :
    isSafeFieldChar c = true := by
  simp only [isDigitChar, Bool.and_eq_true, decide_eq_true_eq] at hc
  simp only [isSafeFieldChar, Bool.and_eq_true, decide_eq_true_eq]
  omega

/-- Hex digits are neither the marker sentinel nor the delimiter. -/
theorem isSafeFieldChar_of_hex (c : Char) (hc : isHexChar c = true) :
    isSafeFieldChar c = true := by
  simp only [isHexChar, Bool.and_eq_true, Bool.or_eq_true, decide_eq_true_eq] at hc
  simp only [isSafeFieldChar, Bool.and_eq_true, decide_eq_true_eq]
  omega

/-- The decimal form of a number is never empty. -/
theorem natToDigits_ne_nil (n : Nat) : natToDigits n ≠ [] := by
  unfold natToDigits
  split
  · simp
  · simp

/-- The decimal form of a number is all digits. -/
theorem natToDigits_all_digit (n : Nat) : (natToDigits n).all isDigitChar = true := by
  induction n using Nat.strong_induction_on with
  | _ n ih =>
    unfold natToDigits
    split
    case isTrue h => simp [isDigitChar_digitChar n h]
    case isFalse h =>
      rw [List.all_append]
      have h1 := ih (n / 10) (by omega)
      simp [h1, isDigitChar_digitChar (n % 10) (by omega)]

/-- Appending one digit multiplies the value by ten. -/
theorem digitsVal_append_digit (cs : List Char) (c : Char) :
    digitsVal (cs ++ [c]) = digitsVal cs * 10 + (c.toNat - 48) := by
  unfold digitsVal
  rw [List.foldl_append]
  rfl

/-- Printing then valuing a decimal number is the identity. -/
theorem digitsVal_natToDigits (n : Nat) : digitsVal (natToDigits n) = n := by
  induction n using Nat.strong_induction_on with
  | _ n ih =>
    unfold natToDigits
    split
    case isTrue h =>
      simp only [digitsVal, List.foldl_cons, List.foldl_nil]
      rw [digitChar_toNat n h]
      omega
    case isFalse h =>
      rw [digitsVal_append_digit, ih (n / 10) (by omega),
        digitChar_toNat (n % 10) (by omega)]
      omega

/-- The timestamp codec round-trips. -/
theorem digitsToNat_natToDigits (n : Nat) : digitsToNat (natToDigits n) = some n := by
  unfold digitsToNat
  rw [if_pos, digitsVal_natToDigits]
  simp [natToDigits_ne_nil n, natToDigits_all_digit n]

/-- A marker containing a character the text lacks never occurs. -/
theorem afterLastMarker_eq_none (m cs : List Char) (c : Char) (hc : c ∈ m)
    (hcs : c ∉ cs) : afterLastMarker m cs = none := by
  induction cs with
  | nil => rfl
  | cons d ds ih =>
    have hds : c ∉ ds := fun h => hcs (List.mem_cons_of_mem d h)
    unfold afterLastMarker
    rw [ih hds]
    by_cases hpre : m.isPrefixOf (d :: ds) = true
    · exact absurd (subset_of_isPrefixOf hpre hc) hcs
    · simp [hpre]

/-- The scan finds the text after the last marker occurrence, provided
the tail of that occurrence contains no further one. -/
theorem afterLastMarker_append_marker (m pre rest : List Char) (hm : m ≠ [])
    (hnone : afterLastMarker m (m.tail ++ rest) = none) :
    afterLastMarker m (pre ++ (m ++ rest)) = some rest := by
  induction pre with
  | nil =>
    obtain ⟨a, t, hat⟩ := List.exists_cons_of_ne_nil hm
    subst hat
    rw [List.tail_cons] at hnone
    rw [List.nil_append, List.cons_append]
    unfold afterLastMarker
    rw [hnone]
    have hpre : (a :: t).isPrefixOf (a :: (t ++ rest)) = true := by
      rw [ List.isPrefixOf_iff_prefix, ← List.cons_append]
      exact List.prefix_append (a :: t) rest
    rw [if_pos hpre, ← List.cons_append, List.drop_left]
  | cons c pre ih =>
    rw [List.cons_append]
    unfold afterLastMarker
    rw [ih]

/-- Splitting a delimiter-free group. -/
theorem splitOnChar_no_delim (d : Char) (xs : List Char)
    (h : ∀ c ∈ xs, c ≠ d) : splitOnChar d xs = [xs] := by
  induction xs with
  | nil => rfl
  | cons c cs ih =>
    have hc : c ≠ d := h c (List.mem_cons_self c cs)
    have hcs : ∀ x ∈ cs, x ≠ d := fun x hx => h x (List.mem_cons_of_mem c hx)
    unfold splitOnChar
    rw [if_neg hc, ih hcs]

/-- Splitting strips the first delimiter-free group. -/
theorem splitOnChar_append (d : Char) (xs ys : List Char)
    (h : ∀ c ∈ xs, c ≠ d) :
    splitOnChar d (xs ++ d :: ys) = xs :: splitOnChar d ys := by
  induction xs with
  | nil =>
    rw [List.nil_append]
    simp only [splitOnChar, if_true]
  | cons c cs ih =>
    have hc : c ≠ d := h c (List.mem_cons_self c cs)
    have hcs : ∀ x ∈ cs, x ≠ d := fun x hx => h x (List.mem_cons_of_mem c hx)
    rw [List.cons_append]
    simp only [splitOnChar]
    rw [if_neg hc, ih hcs]

/-- A safe field character is not the delimiter. -/
theorem safe_ne_delim {c : Char} (h : isSafeFieldChar c = true) : c ≠ DELIM := by
  simp only [isSafeFieldChar, Bool.and_eq_true, decide_eq_true_eq] at h
  intro he
  subst he
  exact h.2 rfl

/-- A safe field character is not the marker sentinel. -/
theorem safe_ne_hash {c : Char} (h : isSafeFieldChar c = true) : c ≠ '#' := by
  simp only [isSafeFieldChar, Bool.and_eq_true, decide_eq_true_eq] at h
  intro he
  subst he
  exact h.1 rfl

/-- Every character of a document type code is safe. -/
theorem code_safe (dt : DocumentType) : dt.code.all isSafeFieldChar = true := by
  cases dt <;> decide

/-- Every character of a decimal timestamp is safe. -/
theorem natToDigits_safe (n : Nat) :
    ∀ c ∈ natToDigits n, isSafeFieldChar c = true := by
  intro c hc
  exact isSafeFieldChar_of_digit c
    (List.all_eq_true.mp (natToDigits_all_digit n) c hc)

/-- The field components of a valid payload, each with its safety. -/
theorem valid_fields_safe (p : ProvenancePayload) (hp : isValidPayload p = true) :
    (∀ c ∈ p.ownerIdHash, isSafeFieldChar c = true) ∧
    (∀ c ∈ p.issuer, isSafeFieldChar c = true) ∧
    (∀ c ∈ p.signature, isSafeFieldChar c = true) := by
  simp only [isValidPayload, Bool.and_eq_true] at hp
  obtain ⟨⟨h1, h2⟩, h3⟩ := hp
  exact ⟨fun c hc => isSafeFieldChar_of_hex c (List.all_eq_true.mp h1 c hc),
    fun c hc => List.all_eq_true.mp h2 c hc,
    fun c hc => isSafeFieldChar_of_hex c (List.all_eq_true.mp h3 c hc)⟩

/-- The marker sentinel appears nowhere in a valid payload's fields. -/
theorem hash_not_mem_encodeFields (p : ProvenancePayload)
    (hp : isValidPayload p = true) : '#' ∉ encodeFields p := by
  obtain ⟨h1, h2, h3⟩ := valid_fields_safe p hp
  intro hmem
  unfold encodeFields at hmem
  simp only [List.mem_append, List.mem_cons] at hmem
  rcases hmem with h | h | h | h | h | h | h | h | h
  · exact safe_ne_hash (h1 '#' h) rfl
  · exact absurd h (by decide)
  · exact safe_ne_hash (List.all_eq_true.mp (code_safe p.documentType) '#' h) rfl
  · exact absurd h (by decide)
  · exact safe_ne_hash (natToDigits_safe p.timestamp '#' h) rfl
  · exact absurd h (by decide)
  · exact safe_ne_hash (h2 '#' h) rfl
  · exact absurd h (by decide)
  · exact safe_ne_hash (h3 '#' h) rfl

/-- Splitting the serialized fields of a valid payload recovers the
five fields. -/
theorem splitOnChar_encodeFields (p : ProvenancePayload)
    (hp : isValidPayload p = true) :
    splitOnChar DELIM (encodeFields p) =
      [p.ownerIdHash, p.documentType.code, natToDigits p.timestamp,
        p.issuer, p.signature] := by
  obtain ⟨h1, h2, h3⟩ := valid_fields_safe p hp
  unfold encodeFields
  rw [splitOnChar_append DELIM _ _ (fun c hc => safe_ne_delim (h1 c hc)),
    splitOnChar_append DELIM _ _
      (fun c hc => safe_ne_delim (List.all_eq_true.mp (code_safe p.documentType) c hc)),
    splitOnChar_append DELIM _ _
      (fun c hc => safe_ne_delim (natToDigits_safe p.timestamp c hc)),
    splitOnChar_append DELIM _ _ (fun c hc => safe_ne_delim (h2 c hc)),
    splitOnChar_no_delim DELIM _ (fun c hc => safe_ne_delim (h3 c hc))]

/-- A document type's code parses back to the type. -/
theorem ofCode_code (dt : DocumentType) :
    DocumentType.ofCode dt.code = some dt := by
  cases dt <;> rfl

/-- The scan of any text ending in a freshly encoded valid payload
finds that payload's fields, whatever content precedes it. -/
theorem afterLastMarker_encode (content : List Char)
    (p : ProvenancePayload) (hp : isValidPayload p = true) :
    afterLastMarker MARKER (content ++ encodePayload p) = some (encodeFields p) := by
  have hnone : afterLastMarker MARKER (MARKER.tail ++ encodeFields p) = none := by
    apply afterLastMarker_eq_none MARKER _ '#' (by decide)
    intro hmem
    rcases List.mem_append.mp hmem with h | h
    · exact absurd h (by decide)
    · exact hash_not_mem_encodeFields p hp h
  rw [show content ++ encodePayload p = content ++ (MARKER ++ encodeFields p) from
    by rw [encodePayload]]
  exact afterLastMarker_append_marker MARKER content (encodeFields p) (by decide) hnone

/-- Decoding any text that ends in a freshly encoded valid payload
recovers exactly that payload, whatever content precedes it. -/
theorem decodePayload_append_encode (content : List Char)
    (p : ProvenancePayload) (hp : isValidPayload p = true) :
    decodePayload (content ++ encodePayload p) = .ok p := by
  unfold decodePayload
  rw [afterLastMarker_encode content p hp]
  simp only [splitOnChar_encodeFields p hp, ofCode_code, digitsToNat_natToDigits]

/-- Decoding a freshly encoded valid payload recovers it. -/
theorem decodePayload_encode (p : ProvenancePayload)
    (hp : isValidPayload p = true) :
    decodePayload (encodePayload p) = .ok p := by
  have := decodePayload_append_encode [] p hp
  rwa [List.nil_append] at this

/-- A text ending in an encoded valid payload carries the marker. -/
theorem hasMarker_append_encode (content : List Char) (p : ProvenancePayload)
    (hp : isValidPayload p = true) :
    hasMarker (content ++ encodePayload p) = true := by
  unfold hasMarker
  rw [afterLastMarker_encode content p hp]
  rfl

/-- An encoded valid payload carries the marker. -/
theorem hasMarker_encode (p : ProvenancePayload) (hp : isValidPayload p = true) :
    hasMarker (encodePayload p) = true := by
  have := hasMarker_append_encode [] p hp
  rwa [List.nil_append] at this

/-- Sanitizing leaves only safe issuer characters. -/
theorem sanitizeIssuer_safe (issuer : List Char) :
    (sanitizeIssuer issuer).all isSafeFieldChar = true :=
  List.all_eq_true.mpr fun _c hc => (List.mem_filter.mp hc).2

/-- The workflow's payload is valid whenever the hash primitives
produce hex digests. -/
theorem signedPayload_valid (hmacF : List Char → List Char → List Char)
    (secret : List Char) (sha256F : List Char → List Char)
    (aadhaar issuer : List Char) (dt : DocumentType) (now : Nat)
    (hsha : ∀ x, (sha256F x).all isHexChar = true)
    (hhmac : ∀ k m, (hmacF k m).all isHexChar = true) :
    isValidPayload (signedPayload hmacF secret sha256F aadhaar issuer dt now) = true := by
  simp only [signedPayload, isValidPayload, Bool.and_eq_true]
  exact ⟨⟨hsha aadhaar, sanitizeIssuer_safe issuer⟩, hhmac secret _⟩

/-- The workflow's own payload passes the MAC, owner and type checks. -/
theorem checkPayload_signed (hmacF : List Char → List Char → List Char)
    (secret : List Char) (sha256F : List Char → List Char)
    (aadhaar issuer : List Char) (dt : DocumentType) (now : Nat) :
    checkPayload hmacF secret sha256F aadhaar dt
      (signedPayload hmacF secret sha256F aadhaar issuer dt now) =
      .valid (signedPayload hmacF secret sha256F aadhaar issuer dt now) := by
  simp [checkPayload, signedPayload, verifyTag]

/-! ## Claim theorems: the signing tool (all spec-modelled) -/

/-- **C2** — payload codec round trip: decoding the encoded text of a
valid payload yields the payload back. -/
theorem c2_payload_roundtrip (p : ProvenancePayload)
    (hp : isValidPayload p = true) :
    decodePayload (encodePayload p) = .ok p :=
  decodePayload_encode p hp

/-- A concrete payload for the codec witness. -/
def wPayload : ProvenancePayload :=
  ⟨"ab12".toList, .birth_certificate, 1700000000,
    "ABC University".toList, "0f3c".toList⟩

/-- Witness for C2 at a concrete payload. -/
theorem c2_payload_roundtrip_witness :
    isValidPayload wPayload = true ∧
    decodePayload (encodePayload wPayload) = .ok wPayload :=
  ⟨by decide, c2_payload_roundtrip wPayload (by decide)⟩

/-- **C1** — sign-then-verify round trip: whenever signing any file
with any identity number and any enumerated type succeeds, verifying
the written output with the same identity and type yields `Valid`
(assuming the hash primitives produce hex digests, as SHA-256 and
HMAC hex digests do). -/
theorem c1_sign_then_verify (hmacF : List Char → List Char → List Char)
    (secret : List Char) (sha256F : List Char → List Char) (pdfLib : Bool)
    (fs : FS) (inPath : DocPath) (aadhaar issuer : List Char)
    (dt : DocumentType) (outPathOpt : Option DocPath) (now : Nat)
    (fs' : FS) (outPath : DocPath)
    (hsha : ∀ x, (sha256F x).all isHexChar = true)
    (hhmac : ∀ k m, (hmacF k m).all isHexChar = true)
    (hsig : signWorkflow hmacF secret sha256F pdfLib fs inPath aadhaar dt.code
      issuer outPathOpt now = .ok (fs', outPath)) :
    verifyWorkflow hmacF secret sha256F pdfLib fs' outPath aadhaar dt =
      .valid (signedPayload hmacF secret sha256F aadhaar issuer dt now) := by
  have hvalid := signedPayload_valid hmacF secret sha256F aadhaar issuer dt now hsha hhmac
  unfold signWorkflow at hsig
  split at hsig
  next heq => rw [ofCode_code] at heq; simp at heq
  next dt' heq =>
    rw [ofCode_code] at heq
    injection heq with hdt
    subst hdt
    split at hsig
    next => exact absurd hsig (by simp)
    next f hf =>
      split at hsig
      next e hembed => exact absurd hsig (by simp)
      next outFile hembed =>
        split at hsig
        next => exact absurd hsig (by simp)
        next hne =>
          rw [Except.ok.injEq, Prod.mk.injEq] at hsig
          obtain ⟨h1, h2⟩ := hsig
          subst h2
          subst h1
          have hlook : updateFS fs (outPathOpt.getD (signedName inPath)) outFile
              (outPathOpt.getD (signedName inPath)) = some outFile := by
            simp [updateFS]
          cases f with
          | pdf meta body =>
            cases pdfLib with
            | false => rw [embedPayload] at hembed; simp at hembed
            | true =>
              simp only [embedPayload, if_true] at hembed
              rw [Except.ok.injEq] at hembed
              subst hembed
              have hext : extractPayloadText true
                  (ModelFile.pdf (some (encodePayload
                    (signedPayload hmacF secret sha256F aadhaar issuer dt now))) body) =
                  some (encodePayload
                    (signedPayload hmacF secret sha256F aadhaar issuer dt now)) := rfl
              simp only [verifyWorkflow, hlook, hext,
                decodePayload_encode _ hvalid, checkPayload_signed]
          | raw ext bytes =>
            simp only [embedPayload] at hembed
            rw [Except.ok.injEq] at hembed
            subst hembed
            have hshape : bytes ++ '\n' :: encodePayload
                (signedPayload hmacF secret sha256F aadhaar issuer dt now) =
                (bytes ++ ['\n']) ++ encodePayload
                  (signedPayload hmacF secret sha256F aadhaar issuer dt now) := by
              simp
            have hmark2 : hasMarker (bytes ++ '\n' :: encodePayload
                (signedPayload hmacF secret sha256F aadhaar issuer dt now)) = true := by
              unfold hasMarker
              rw [hshape, afterLastMarker_encode _ _ hvalid]
              rfl
            have hext : extractPayloadText pdfLib
                (ModelFile.raw ext (bytes ++ '\n' :: encodePayload
                  (signedPayload hmacF secret sha256F aadhaar issuer dt now))) =
                some (bytes ++ '\n' :: encodePayload
                  (signedPayload hmacF secret sha256F aadhaar issuer dt now)) := by
              simp [extractPayloadText, hmark2]
            have hdec : decodePayload (bytes ++ '\n' :: encodePayload
                (signedPayload hmacF secret sha256F aadhaar issuer dt now)) =
                .ok (signedPayload hmacF secret sha256F aadhaar issuer dt now) := by
              rw [hshape]
              exact decodePayload_append_encode _ _ hvalid
            simp only [verifyWorkflow, hlook, hext, hdec, checkPayload_signed]

/-- Fixtures for the workflow witnesses. -/
def wHmac : List Char → List Char → List Char := fun _ _ => "beef".toList

/-- A concrete stand-in for the SHA-256 hex digest. -/
def wSha : List Char → List Char := fun _ => "ab12".toList

/-- A concrete input path. -/
def wIn : DocPath := ⟨"doc".toList, "txt".toList⟩

/-- A file system holding one small text file at the input path. -/
def wFs : FS := fun q => if q = wIn then some (.raw "txt".toList "hi".toList) else none

/-- A concrete identity number. -/
def wAad : List Char := "123412341234".toList

/-- Witness for C1: sign the concrete text file, then verify the
output with the same identity and type. -/
theorem c1_sign_then_verify_witness :
    (∀ x, (wSha x).all isHexChar = true) ∧
    (∀ k m, (wHmac k m).all isHexChar = true) ∧
    verifyWorkflow wHmac [] wSha true
        (updateFS wFs (signedName wIn)
          (.raw "txt".toList ("hi".toList ++ '\n' ::
            encodePayload (signedPayload wHmac [] wSha wAad [] .birth_certificate 1700))))
        (signedName wIn) wAad .birth_certificate =
      .valid (signedPayload wHmac [] wSha wAad [] .birth_certificate 1700) :=
  ⟨fun _ => rfl, fun _ _ => rfl,
    c1_sign_then_verify wHmac [] wSha true wFs wIn wAad [] .birth_certificate none 1700
      _ _ (fun _ => rfl) (fun _ _ => rfl) rfl⟩

/-- **C3** — the verification workflow checks the MAC before any
identity comparison: a failed MAC yields `InvalidSignature` no matter
how owner and type compare; with a valid MAC, an owner-hash mismatch
yields `OwnerMismatch` (never `InvalidSignature`); with a matching
owner, a differing type yields `TypeMismatch`. -/
theorem c3_mac_before_identity (hmacF : List Char → List Char → List Char)
    (secret : List Char) (sha256F : List Char → List Char) (pdfLib : Bool)
    (fs : FS) (path : DocPath) (expAad : List Char) (expType : DocumentType)
    (f : ModelFile) (text : List Char) (p : ProvenancePayload)
    (hfs : fs path = some f)
    (hext : extractPayloadText pdfLib f = some text)
    (hdec : decodePayload text = .ok p) :
    (verifyTag hmacF secret p.ownerIdHash p.documentType p.timestamp p.issuer
        p.signature = false →
      verifyWorkflow hmacF secret sha256F pdfLib fs path expAad expType =
        .invalidSignature) ∧
    (verifyTag hmacF secret p.ownerIdHash p.documentType p.timestamp p.issuer
        p.signature = true →
      sha256F expAad ≠ p.ownerIdHash →
      verifyWorkflow hmacF secret sha256F pdfLib fs path expAad expType =
        .ownerMismatch) ∧
    (verifyTag hmacF secret p.ownerIdHash p.documentType p.timestamp p.issuer
        p.signature = true →
      sha256F expAad = p.ownerIdHash → expType ≠ p.documentType →
      verifyWorkflow hmacF secret sha256F pdfLib fs path expAad expType =
        .typeMismatch) := by
  have hred : verifyWorkflow hmacF secret sha256F pdfLib fs path expAad expType =
      checkPayload hmacF secret sha256F expAad expType p := by
    simp [verifyWorkflow, hfs, hext, hdec]
  refine ⟨fun h1 => ?_, fun h1 h2 => ?_, fun h1 h2 h3 => ?_⟩
  · rw [hred]
    simp [checkPayload, h1]
  · rw [hred]
    simp [checkPayload, h1, h2]
  · rw [hred]
    simp [checkPayload, h1, h2, h3]

/-- An HMAC stand-in that never matches the stored `beef` tag. -/
def wHmacBad : List Char → List Char → List Char := fun _ _ => "dead".toList

/-- A decodable stored payload whose signature field is `beef`. -/
def wP3 : ProvenancePayload := ⟨"ab12".toList, .other, 42, [], "beef".toList⟩

/-- A text file that carries `wP3` embedded. -/
def wFile3 : ModelFile := .raw "txt".toList (encodePayload wP3)

/-- A file system holding that signed file. -/
def wFs3 : FS := fun q => if q = wIn then some wFile3 else none

/-- Witness for C3 on a concrete signed file. -/
theorem c3_mac_before_identity_witness :
    (verifyTag wHmacBad [] wP3.ownerIdHash wP3.documentType wP3.timestamp wP3.issuer
        wP3.signature = false →
      verifyWorkflow wHmacBad [] wSha true wFs3 wIn wAad .other =
        .invalidSignature) ∧
    (verifyTag wHmacBad [] wP3.ownerIdHash wP3.documentType wP3.timestamp wP3.issuer
        wP3.signature = true →
      wSha wAad ≠ wP3.ownerIdHash →
      verifyWorkflow wHmacBad [] wSha true wFs3 wIn wAad .other =
        .ownerMismatch) ∧
    (verifyTag wHmacBad [] wP3.ownerIdHash wP3.documentType wP3.timestamp wP3.issuer
        wP3.signature = true →
      wSha wAad = wP3.ownerIdHash → DocumentType.other ≠ wP3.documentType →
      verifyWorkflow wHmacBad [] wSha true wFs3 wIn wAad .other =
        .typeMismatch) :=
  c3_mac_before_identity wHmacBad [] wSha true wFs3 wIn wAad .other wFile3
    (encodePayload wP3) wP3 rfl
    (by simp [wFile3, extractPayloadText, hasMarker_encode wP3 (by decide)])
    (decodePayload_encode wP3 (by decide))

/-- **C4** — verifying a file with no embedded payload marker yields
`NoSignature`, an outcome distinct from `MalformedPayload`, from every
error outcome and from `Valid`. -/
theorem c4_unsigned_noSignature (hmacF : List Char → List Char → List Char)
    (secret : List Char) (sha256F : List Char → List Char) (pdfLib : Bool)
    (fs : FS) (path : DocPath) (expAad : List Char) (expType : DocumentType)
    (f : ModelFile) (hfs : fs path = some f) (hmark : fileHasMarker f = false) :
    verifyWorkflow hmacF secret sha256F pdfLib fs path expAad expType =
      .noSignature ∧
    VerifyResult.noSignature ≠ .malformedPayload ∧
    VerifyResult.noSignature ≠ .invalidSignature ∧
    VerifyResult.noSignature ≠ .ownerMismatch ∧
    VerifyResult.noSignature ≠ .typeMismatch ∧
    VerifyResult.noSignature ≠ .ioFailure ∧
    (∀ q, VerifyResult.noSignature ≠ .valid q) := by
  refine ⟨?_, by decide, by decide, by decide, by decide, by decide,
    fun q h => nomatch h⟩
  cases f with
  | raw ext bytes =>
    have hb : hasMarker bytes = false := hmark
    have hext : extractPayloadText pdfLib (ModelFile.raw ext bytes) = none := by
      simp [extractPayloadText, hb]
    simp [verifyWorkflow, hfs, hext]
  | pdf meta body =>
    cases meta with
    | none => cases pdfLib <;> simp [verifyWorkflow, hfs, extractPayloadText]
    | some m =>
      have hm : hasMarker m = false := hmark
      have hnone : afterLastMarker MARKER m = none := by
        unfold hasMarker at hm
        cases ha : afterLastMarker MARKER m with
        | none => rfl
        | some r => rw [ha] at hm; simp at hm
      cases pdfLib with
      | false => simp [verifyWorkflow, hfs, extractPayloadText]
      | true =>
        have hdec : decodePayload m = .notFound := by
          simp [decodePayload, hnone]
        simp [verifyWorkflow, hfs, extractPayloadText, hdec]

/-- An unsigned text file. -/
def wFile4 : ModelFile := .raw "txt".toList "hello".toList

/-- A file system holding only that unsigned file. -/
def wFs4 : FS := fun q => if q = wIn then some wFile4 else none

/-- Witness for C4 on a concrete unsigned file. -/
theorem c4_unsigned_noSignature_witness :
    verifyWorkflow wHmac [] wSha true wFs4 wIn wAad .other = .noSignature ∧
    VerifyResult.noSignature ≠ .malformedPayload ∧
    VerifyResult.noSignature ≠ .invalidSignature ∧
    VerifyResult.noSignature ≠ .ownerMismatch ∧
    VerifyResult.noSignature ≠ .typeMismatch ∧
    VerifyResult.noSignature ≠ .ioFailure ∧
    (∀ q, VerifyResult.noSignature ≠ .valid q) :=
  c4_unsigned_noSignature wHmac [] wSha true wFs4 wIn wAad .other wFile4
    rfl (by decide)

/-- **C5** — embedding into a PDF without the PDF library fails with
`UnsupportedFormat`: the adapter never returns a file (so it never
falls back to appending trailing bytes), and the whole signing
workflow surfaces the same error. -/
theorem c5_pdf_without_lib (meta : Option (List Char)) (body payloadText : List Char)
    (hmacF : List Char → List Char → List Char) (secret : List Char)
    (sha256F : List Char → List Char) (fs : FS) (inPath : DocPath)
    (aadhaar issuer : List Char) (dt : DocumentType)
    (outPathOpt : Option DocPath) (now : Nat)
    (hfs : fs inPath = some (.pdf meta body)) :
    embedPayload false (.pdf meta body) payloadText = .error .unsupportedFormat ∧
    (∀ out, embedPayload false (.pdf meta body) payloadText ≠ .ok out) ∧
    signWorkflow hmacF secret sha256F false fs inPath aadhaar dt.code issuer
      outPathOpt now = .error .unsupportedFormat := by
  refine ⟨rfl, fun out h => by simp [embedPayload] at h, ?_⟩
  simp [signWorkflow, ofCode_code, hfs, embedPayload]

/-- A PDF file with no metadata. -/
def wFile5 : ModelFile := .pdf none "pdfbody".toList

/-- A file system holding that PDF. -/
def wFs5 : FS := fun q => if q = wIn then some wFile5 else none

/-- Witness for C5 on a concrete PDF without the library. -/
theorem c5_pdf_without_lib_witness :
    embedPayload false (.pdf none "pdfbody".toList) "x".toList =
      .error .unsupportedFormat ∧
    (∀ out, embedPayload false (.pdf none "pdfbody".toList) "x".toList ≠ .ok out) ∧
    signWorkflow wHmac [] wSha false wFs5 wIn wAad DocumentType.other.code []
      none 1700 = .error .unsupportedFormat :=
  c5_pdf_without_lib none "pdfbody".toList "x".toList wHmac [] wSha wFs5 wIn
    wAad [] .other none 1700 rfl

/-- **C6** — signing never modifies the original input file: on
success the input path's content is unchanged, the output path differs
from the input path, exactly the output path gained a file (every
other path is untouched), and without an explicit output path the
output is named `<stem>_signed.<ext>`. -/
theorem c6_sign_frame (hmacF : List Char → List Char → List Char) (secret : List Char)
    (sha256F : List Char → List Char) (pdfLib : Bool) (fs : FS) (inPath : DocPath)
    (aadhaar typeCode issuer : List Char) (outPathOpt : Option DocPath) (now : Nat)
    (fs' : FS) (outPath : DocPath)
    (hsig : signWorkflow hmacF secret sha256F pdfLib fs inPath aadhaar typeCode
      issuer outPathOpt now = .ok (fs', outPath)) :
    fs' inPath = fs inPath ∧
    outPath ≠ inPath ∧
    (fs' outPath).isSome = true ∧
    (∀ q, q ≠ outPath → fs' q = fs q) ∧
    (outPathOpt = none → outPath = signedName inPath) := by
  unfold signWorkflow at hsig
  split at hsig
  next => exact absurd hsig (by simp)
  next dt heq =>
    split at hsig
    next => exact absurd hsig (by simp)
    next f hf =>
      split at hsig
      next e hembed => exact absurd hsig (by simp)
      next outFile hembed =>
        split at hsig
        next => exact absurd hsig (by simp)
        next hne =>
          rw [Except.ok.injEq, Prod.mk.injEq] at hsig
          obtain ⟨h1, h2⟩ := hsig
          subst h2
          subst h1
          refine ⟨?_, ?_, ?_, ?_, ?_⟩
          · simp only [updateFS]
            rw [if_neg (fun h => hne h.symm)]
          · exact hne
          · simp [updateFS]
          · intro q hq
            simp only [updateFS]
            rw [if_neg hq]
          · intro hnone
            rw [hnone]
            rfl

/-- Witness for C6 on the same concrete signing run as C1. -/
theorem c6_sign_frame_witness :
    (updateFS wFs (signedName wIn)
        (.raw "txt".toList ("hi".toList ++ '\n' ::
          encodePayload (signedPayload wHmac [] wSha wAad [] .other 1700)))) wIn =
      wFs wIn ∧
    signedName wIn ≠ wIn ∧
    ((updateFS wFs (signedName wIn)
        (.raw "txt".toList ("hi".toList ++ '\n' ::
          encodePayload (signedPayload wHmac [] wSha wAad [] .other 1700))))
      (signedName wIn)).isSome = true ∧
    (∀ q, q ≠ signedName wIn →
      (updateFS wFs (signedName wIn)
        (.raw "txt".toList ("hi".toList ++ '\n' ::
          encodePayload (signedPayload wHmac [] wSha wAad [] .other 1700)))) q =
        wFs q) ∧
    ((none : Option DocPath) = none → signedName wIn = signedName wIn) :=
  c6_sign_frame wHmac [] wSha true wFs wIn wAad "other".toList [] none 1700
    _ _ rfl

/-! ## Contract lemmas -/

/-- A `storeHash` transaction for a different hash never changes
`timestamps[h]`. -/
theorem storeHashTx_other (s : NotaryState) (a b h : Nat) (hne : a ≠ h) :
    (storeHashTx s a b).timestamps h = s.timestamps h := by
  unfold storeHashTx storeHash
  by_cases h0 : s.timestamps a = 0 <;> simp [h0, Option.getD]
  intro heq
  exact absurd heq.symm hne

/-- A `storeHash` transaction never changes a slot that is already
nonzero: either the hash differs, or the `require` reverts. -/
theorem storeHashTx_preserves_nonzero (s : NotaryState) (a b h : Nat)
    (hnz : s.timestamps h ≠ 0) :
    (storeHashTx s a b).timestamps h = s.timestamps h := by
  by_cases hah : a = h
  · subst hah
    unfold storeHashTx storeHash
    simp [hnz]
  · exact storeHashTx_other s a b h hah

/-- Folding `storeHash` transactions whose hashes all differ from `h`
leaves `timestamps[h]` unchanged. -/
theorem timestamps_foldl_eq (stores : List (Nat × Nat)) (s : NotaryState) (h : Nat)
    (habsent : ∀ p ∈ stores, p.1 ≠ h) :
    (stores.foldl (fun s p => storeHashTx s p.1 p.2) s).timestamps h = s.timestamps h := by
  induction stores generalizing s with
  | nil => rfl
  | cons p rest ih =>
    have hp : p.1 ≠ h := habsent p (List.mem_cons_self p rest)
    have hrest : ∀ q ∈ rest, q.1 ≠ h := fun q hq => habsent q (List.mem_cons_of_mem p hq)
    simp only [List.foldl_cons]
    rw [ih (storeHashTx s p.1 p.2) hrest, storeHashTx_other s p.1 p.2 h hp]

/-! ## Claim theorems: the contract and the browser flow -/

/-- **C7** — `storeHash` is a write-once update: on a slot that is
still zero it records the current block timestamp; a subsequent
`storeHash` of the same hash reverts (`require(timestamps[hash] == 0)`
fails), so the transaction leaves the first recorded value in place. -/
theorem c7_storeHash_write_once (s : NotaryState) (h t t' : Nat)
    (hfresh : s.timestamps h = 0) (ht : 0 < t) :
    (storeHashTx s h t).timestamps h = t ∧
    storeHash (storeHashTx s h t) h t' = none ∧
    (storeHashTx (storeHashTx s h t) h t').timestamps h = t := by
  have hset : (storeHashTx s h t).timestamps h = t := by
    unfold storeHashTx storeHash
    simp [hfresh]
  refine ⟨hset, ?_, ?_⟩
  · unfold storeHash
    rw [hset]
    simp [Nat.pos_iff_ne_zero.mp ht]
  · rw [storeHashTx_preserves_nonzero _ h t' h (by rw [hset]; exact Nat.pos_iff_ne_zero.mp ht)]
    exact hset

/-- Witness for C7 at a concrete state and timestamps. -/
theorem c7_storeHash_write_once_witness :
    (storeHashTx NotaryState.init 1 5).timestamps 1 = 5 ∧
    storeHash (storeHashTx NotaryState.init 1 5) 1 9 = none ∧
    (storeHashTx (storeHashTx NotaryState.init 1 5) 1 9).timestamps 1 = 5 :=
  c7_storeHash_write_once NotaryState.init 1 5 9 rfl (by decide)

/-- **C8** — the read operations are coherent views of the one
mapping: `verifyHash` returns `timestamps[h]`, `isNotarized` is true
exactly when `verifyHash` is positive, and a hash never stored still
reads `0` after any run of `storeHash` transactions on other hashes. -/
theorem c8_reads_coherent (s : NotaryState) (h : Nat) (stores : List (Nat × Nat))
    (habsent : ∀ p ∈ stores, p.1 ≠ h) :
    verifyHash s h = s.timestamps h ∧
    (isNotarized s h = true ↔ verifyHash s h > 0) ∧
    verifyHash (execStores stores) h = 0 := by
  refine ⟨rfl, ?_, ?_⟩
  · simp [isNotarized, verifyHash]
  · unfold verifyHash execStores
    rw [timestamps_foldl_eq stores NotaryState.init h habsent]
    rfl

/-- Witness for C8: a contract that stored hash `1` and is read at
hash `2`. -/
theorem c8_reads_coherent_witness :
    verifyHash (execStores [(1, 5)]) 2 = (execStores [(1, 5)]).timestamps 2 ∧
    (isNotarized (execStores [(1, 5)]) 2 = true ↔ verifyHash (execStores [(1, 5)]) 2 > 0) ∧
    verifyHash (execStores [(1, 5)]) 2 = 0 :=
  c8_reads_coherent (execStores [(1, 5)]) 2 [(1, 5)] (by decide)

/-- **C9** — the browser flow submits the `storeHash` transaction only
after the backend verification request succeeded, and on a reported
verification failure it shows the failure and performs no chain
interaction. -/
theorem c9_verify_before_chain (hasAccount hasFile hasDocType : Bool)
    (resp : NotarizeResponse) (txOk : Bool) :
    (∀ hsh, FlowStep.storeHashTxSend hsh ∈
        handleNotarize hasAccount hasFile hasDocType resp txOk → resp.ok = true) ∧
    (resp.ok = false → resp.verification_failed = true →
      hasAccount = true → hasFile = true → hasDocType = true →
      handleNotarize hasAccount hasFile hasDocType resp txOk =
        [FlowStep.showVerificationError]) := by
  obtain ⟨ok, vf, hsh0, err⟩ := resp
  cases hasAccount <;> cases hasFile <;> cases hasDocType <;> cases ok <;> cases vf <;>
    cases txOk <;>
    simp [handleNotarize, sendTransactionToBlockchain]

/-- **C10** — once `timestamps[h]` is nonzero, no sequence of contract
operations ever changes it: `storeHash` reverts on an occupied slot
and the other two operations are read-only. -/
theorem c10_recorded_timestamp_immutable (s : NotaryState) (h : Nat)
    (ops : List NotaryOp) (hnz : s.timestamps h ≠ 0) :
    (applyOps s ops).timestamps h = s.timestamps h := by
  induction ops generalizing s with
  | nil => rfl
  | cons op rest ih =>
    cases op with
    | store a b =>
      have hpres := storeHashTx_preserves_nonzero s a b h hnz
      have hnz' : (storeHashTx s a b).timestamps h ≠ 0 := by rw [hpres]; exact hnz
      simp only [applyOps, List.foldl_cons, applyOp]
      exact (ih (storeHashTx s a b) hnz').trans hpres
    | verify a =>
      simp only [applyOps, List.foldl_cons, applyOp]
      exact ih s hnz
    | check a =>
      simp only [applyOps, List.foldl_cons, applyOp]
      exact ih s hnz

/-- Witness for C10: hash `1` stored at timestamp `5` survives a later
store attempt, the view calls and an unrelated store. -/
theorem c10_recorded_timestamp_immutable_witness :
    (applyOps (storeHashTx NotaryState.init 1 5)
        [.store 1 9, .verify 1, .check 2, .store 2 3]).timestamps 1 =
      (storeHashTx NotaryState.init 1 5).timestamps 1 :=
  c10_recorded_timestamp_immutable (storeHashTx NotaryState.init 1 5) 1
    [.store 1 9, .verify 1, .check 2, .store 2 3] (by decide)

end BlockNotary
